import Mathlib

/-!
Shallow embedding of the scroll-tracking / navigation core of the
styletron.js.org documentation site (src/components/layout.js and
src/components/navigation.js), together with theorems settling the
spec claims about it.

Conventions of the embedding:
* A JS value that may be `undefined`/`null` is an `Option`.
* A computation that may throw (e.g. calling a method on `null`) returns
  `Option`, with `none` for the thrown exception.
* Pixel offsets are `Int` (they may be negative once an element has
  scrolled above the viewport top).
* The route table `ROUTES` (defined in src/const.js, outside the sources
  provided) is passed explicitly as a `List Route`; a route's `anchors`
  field is `Option (List String)` because routes without sub-sections may
  omit the field (`Array.isArray` distinguishes a present array, possibly
  empty, from an absent field).
* The DOM is a function `dom : String → Option Int` mapping an element id
  to the `top` of its bounding rectangle relative to the viewport, `none`
  when `document.getElementById` returns `null`.
-/

namespace StyletronDocs

/-- A route descriptor from the `ROUTES` table: a path, a display text, and
an optional ordered list of in-page section anchors. -/
structure Route where
  path : String
  text : String
  anchors : Option (List String)
deriving Repr, DecidableEq

/-! ## Anchor identifier transform -/

/-- Modelled from the spec: helper for `cleanAnchor`, whose source
(src/components/markdown-elements.js) is not among the provided files.
Per the spec the transform keeps lowercase letters (codepoints 97-122),
digits (48-57) and hyphens (45), turns a space (32) into a hyphen, and
strips every other character. -/
def keepChar (c : Char) : Option Char :=
  if c.toNat = 32 then some '-'
  else if (97 ≤ c.toNat ∧ c.toNat ≤ 122) ∨ (48 ≤ c.toNat ∧ c.toNat ≤ 57) ∨ c.toNat = 45
    then some c
  else none

/-- Modelled from the spec: `cleanAnchor` from
src/components/markdown-elements.js is not among the provided sources.
The spec describes it as a pure total transform that lowercases the
heading string and collapses whitespace/punctuation to hyphens, stripping
symbol characters, e.g. mapping "Composing Styles" to "composing-styles"
and "$as prop" to "as-prop". -/
def cleanAnchor (s : String) : String :=
  String.mk ((s.toList.map Char.toLower).filterMap keepChar)

/-- Every character emitted by `keepChar` is a fixed point of both
`Char.toLower` and `keepChar`. -/
theorem keepChar_fixed {c d : Char} (h : keepChar c = some d) :
    Char.toLower d = d ∧ keepChar d = some d := by
  unfold keepChar at h
  by_cases h32 : c.toNat = 32
  · rw [if_pos h32] at h
    cases h
    constructor
    · decide
    · decide
  · rw [if_neg h32] at h
    by_cases hk : (97 ≤ c.toNat ∧ c.toNat ≤ 122) ∨ (48 ≤ c.toNat ∧ c.toNat ≤ 57) ∨ c.toNat = 45
    · rw [if_pos hk] at h
      cases h
      constructor
      · unfold Char.toLower
        rw [if_neg (by omega)]
      · unfold keepChar
        rw [if_neg (by omega), if_pos hk]
    · rw [if_neg hk] at h
      cases h

/-- The lowering pass is the identity on any list already produced by the
`keepChar` filtering pass. -/
theorem map_toLower_filterMap_keepChar (l : List Char) :
    (l.filterMap keepChar).map Char.toLower = l.filterMap keepChar := by
  induction l with
  | nil => rfl
  | cons a rest ih =>
    cases hk : keepChar a with
    | none => simpa [List.filterMap_cons, hk] using ih
    | some d =>
      have hd := keepChar_fixed hk
      simp [List.filterMap_cons, hk, hd.1, ih]

/-- The `keepChar` filtering pass is idempotent. -/
theorem filterMap_keepChar_idem (l : List Char) :
    (l.filterMap keepChar).filterMap keepChar = l.filterMap keepChar := by
  induction l with
  | nil => rfl
  | cons a rest ih =>
    cases hk : keepChar a with
    | none => simpa [List.filterMap_cons, hk] using ih
    | some d =>
      have hd := keepChar_fixed hk
      simp [List.filterMap_cons, hk, hd.2, ih]

/-! ## Path matching -/

/-- `s.replace(/\//g, "")`: the path string with every separator removed. -/
def stripSlashes (s : String) : String :=
  String.mk (s.toList.filter (fun c => c ≠ '/'))

/-- The per-route comparison used by `getPathIndex` (layout.js:120-121):
`route.path.replace(/\//g, "") === this.props.path.replace(/\//g, "")`. -/
def routeMatches (r : Route) (path : String) : Bool :=
  stripSlashes r.path == stripSlashes path

/-- `Array.prototype.findIndex` on a list: index of the first element
satisfying the predicate, `none` when there is none. -/
def findIdxOpt (p : α → Bool) : List α → Option Nat
  | [] => none
  | a :: rest => if p a then some 0 else (findIdxOpt p rest).map (· + 1)

/-- `getPathIndex` (layout.js:118-123): the index of the first route whose
path equals the current path with all separators stripped, `-1` when no
route matches. -/
def getPathIndex (routes : List Route) (path : String) : Int :=
  match findIdxOpt (fun r => routeMatches r path) routes with
  | some n => (n : Int)
  | none => -1

/-- `ROUTES[i]` for a possibly negative JS index: `undefined` (`none`) for
a negative or out-of-range index. -/
def routeAt (routes : List Route) (i : Int) : Option Route :=
  if 0 ≤ i then routes[i.toNat]? else none

theorem findIdxOpt_some {p : α → Bool} :
    ∀ {l : List α} {n : Nat}, findIdxOpt p l = some n →
      ∃ x, l[n]? = some x ∧ p x = true := by
  intro l
  induction l with
  | nil => intro n h; cases h
  | cons a rest ih =>
    intro n h
    unfold findIdxOpt at h
    by_cases hp : p a
    · rw [if_pos hp] at h
      cases h
      exact ⟨a, by simp, hp⟩
    · rw [if_neg hp] at h
      cases hrest : findIdxOpt p rest with
      | none => rw [hrest] at h; cases h
      | some m =>
        rw [hrest] at h
        cases h
        obtain ⟨x, hx, hpx⟩ := ih hrest
        exact ⟨x, by simpa using hx, hpx⟩

/-- The route found by `getPathIndex` (when any) satisfies the
separator-stripped equality with the current path. -/
theorem routeAt_getPathIndex_matches {routes : List Route} {path : String}
    {r : Route} (h : routeAt routes (getPathIndex routes path) = some r) :
    stripSlashes r.path = stripSlashes path := by
  unfold getPathIndex at h
  cases hf : findIdxOpt (fun r => routeMatches r path) routes with
  | none =>
    rw [hf] at h
    simp [routeAt] at h
  | some n =>
    rw [hf] at h
    have hred : (match (some n : Option Nat) with
        | some n => (n : Int) | none => -1) = (n : Int) := rfl
    rw [hred] at h
    obtain ⟨x, hx, hpx⟩ := findIdxOpt_some hf
    unfold routeAt at h
    rw [if_pos (by omega)] at h
    simp only [Int.toNat_natCast] at h
    rw [hx] at h
    cases h
    simpa [routeMatches] using hpx

/-! ## Active-section tracker (layout.js) -/

/-- The component state of `Layout` (layout.js:89-96): the mobile sidebar
toggle and the tracked active anchor (`null`/`undefined` is `none`). -/
structure LayoutState where
  sidebarVisible : Bool
  activeAnchor : Option String
deriving Repr, DecidableEq

/-- The state initializer (layout.js:89-96):
`ROUTES[i] && Array.isArray(ROUTES[i].anchors) ? ROUTES[i].anchors[0] : null`
with `i = getPathIndex()`. `anchors[0]` on an empty array is `undefined`,
hence `List.head?`. -/
def initState (routes : List Route) (path : String) : LayoutState :=
  { sidebarVisible := false
    activeAnchor :=
      match routeAt routes (getPathIndex routes path) with
      | some r =>
        match r.anchors with
        | some l => l.head?
        | none => none
      | none => none }

/-- The `anchors.forEach` scan of `onScroll` (layout.js:110-115): `acc` is
the running `activeAnchor` candidate. For each anchor the element with id
`cleanAnchor anchor` is looked up; a missing element (`none`) makes
`el.getBoundingClientRect()` throw, aborting the whole scan (outer
`none`). Otherwise the candidate is replaced whenever
`top - 26 < 0`. -/
def scanAnchors (dom : String → Option Int) (acc : Option String) :
    List String → Option (Option String)
  | [] => some acc
  | a :: rest =>
    match dom (cleanAnchor a) with
    | none => none
    | some top => scanAnchors dom (if top - 26 < 0 then some a else acc) rest

/-- `onScroll` (layout.js:106-117): recompute the active anchor for the
current route. Returns `none` when the handler throws: `ROUTES[-1]` is
`undefined` (so `.anchors` throws), `anchors` absent (so `anchors[0]`
throws), or some anchor's element is missing. `some a` is the value passed
to `setState`. -/
def onScroll (routes : List Route) (path : String)
    (dom : String → Option Int) : Option (Option String) :=
  match routeAt routes (getPathIndex routes path) with
  | none => none
  | some r =>
    match r.anchors with
    | none => none
    | some anchors => scanAnchors dom anchors.head? anchors

/-- One scroll event delivered to the handler: on success the state is
updated with the recomputed anchor; when the handler throws, `setState` is
never reached and the state is unchanged. -/
def scrollStep (routes : List Route) (path : String)
    (dom : String → Option Int) (s : LayoutState) : LayoutState :=
  match onScroll routes path dom with
  | some a => { s with activeAnchor := a }
  | none => s

/-- A sequence of scroll events, each observing its own DOM snapshot. -/
def runScrolls (routes : List Route) (path : String)
    (doms : List (String → Option Int)) (s : LayoutState) : LayoutState :=
  doms.foldl (fun st d => scrollStep routes path d st) s

/-- `componentDidMount` (layout.js:97-102). Result: `none` when the hook
throws (`ROUTES[-1].anchors` on a path matching no route); otherwise
`(listener registrations, onScroll invocations, state afterwards)`. The
guard is `Array.isArray(ROUTES[pathIndex].anchors)`, true for any present
array (also an empty one). An exception from the initial `onScroll` call
leaves the already-registered listener in place and the state unchanged,
which is what `scrollStep` yields. -/
def componentDidMount (routes : List Route) (path : String)
    (dom : String → Option Int) (s : LayoutState) :
    Option (Nat × Nat × LayoutState) :=
  match routeAt routes (getPathIndex routes path) with
  | none => none
  | some r =>
    match r.anchors with
    | some _ => some (1, 1, scrollStep routes path dom s)
    | none => some (0, 0, s)

/-- `componentWillUnmount` (layout.js:103-105): `removeEventListener` is
called unconditionally, so whatever the listener-registration state was,
afterwards no listener is registered. -/
def componentWillUnmount (_registered : Bool) : Bool :=
  false

/-- The anchor list of the route matching the current path: the route's
`anchors` when the path matches a route carrying one, `[]` otherwise. -/
def currentAnchors (routes : List Route) (path : String) : List String :=
  match routeAt routes (getPathIndex routes path) with
  | some r => r.anchors.getD []
  | none => []

/-! ## Navigation renderer (navigation.js) -/

/-- One rendered sidebar entry: a top-level route item (its display text
and whether it is styled active) or an anchor sub-item (the anchor and
whether it is styled active). -/
inductive NavItem where
  | routeItem (text : String) (active : Bool)
  | anchorItem (anchor : String) (active : Bool)
deriving Repr, DecidableEq

/-- Whether a rendered item is a route item marked active. -/
def isActiveRoute : NavItem → Bool
  | .routeItem _ b => b
  | .anchorItem _ _ => false

/-- Whether a rendered item is an anchor sub-item marked active. -/
def isActiveAnchorItem : NavItem → Bool
  | .anchorItem _ b => b
  | .routeItem _ _ => false

/-- The anchor carried by an anchor sub-item, `none` for route items. -/
def anchorName : NavItem → Option String
  | .anchorItem a _ => some a
  | .routeItem _ _ => none

/-- The `ROUTES.map` body of `Navigation` (navigation.js:45-69), walking
the table with its running index `i`. Each route renders a route item
active iff `pathIndex === index`; at the matching index the sub-items
`ROUTES[pathIndex].anchors.map(...)` are rendered, which throws (`none`)
when `anchors` is absent. An anchor sub-item is active iff
`activeAnchor === anchor`. -/
def renderNavAux (routes : List Route) (pathIndex : Int)
    (activeAnchor : Option String) : Nat → List Route → Option (List NavItem)
  | _, [] => some []
  | i, rt :: rest =>
    let head := NavItem.routeItem rt.text (decide (pathIndex = (i : Int)))
    if pathIndex = (i : Int) then
      match routeAt routes pathIndex with
      | none => none
      | some rr =>
        match rr.anchors with
        | none => none
        | some l =>
          (renderNavAux routes pathIndex activeAnchor (i + 1) rest).map
            (fun t =>
              head ::
                l.map (fun a =>
                  NavItem.anchorItem a (decide (activeAnchor = some a))) ++ t)
    else
      (renderNavAux routes pathIndex activeAnchor (i + 1) rest).map
        (fun t => head :: t)

/-- `Navigation` (navigation.js:43-71) as the flat list of sidebar items it
renders, `none` when rendering throws. -/
def renderNav (routes : List Route) (pathIndex : Int)
    (activeAnchor : Option String) : Option (List NavItem) :=
  renderNavAux routes pathIndex activeAnchor 0 routes

/-! ## Scan lemmas -/

/-- When every anchor's element is present, the scan computes the last
anchor (in list order) whose top offset minus the 26px threshold is
negative, defaulting to the initial candidate. -/
theorem scanAnchors_eq_of_total {dom : String → Option Int}
    {top : String → Int} :
    ∀ {l : List String}, (∀ a ∈ l, dom (cleanAnchor a) = some (top a)) →
      ∀ acc, scanAnchors dom acc l =
        some (match (l.filter (fun a => decide (top a - 26 < 0))).getLast? with
              | some a => some a
              | none => acc) := by
  intro l
  induction l with
  | nil => intro _ acc; rfl
  | cons a rest ih =>
    intro h acc
    have ha : dom (cleanAnchor a) = some (top a) := h a (List.mem_cons_self a rest)
    have hrest : ∀ b ∈ rest, dom (cleanAnchor b) = some (top b) :=
      fun b hb => h b (List.mem_cons_of_mem a hb)
    unfold scanAnchors
    rw [ha]
    show scanAnchors dom (if top a - 26 < 0 then some a else acc) rest = _
    rw [ih hrest]
    by_cases hp : top a - 26 < 0
    · rw [if_pos hp]
      rw [List.filter_cons_of_pos (by simpa using hp)]
      rw [List.getLast?_cons]
      cases hlast : (rest.filter (fun b => decide (top b - 26 < 0))).getLast? with
      | none => simp [hlast]
      | some b => simp [hlast]
    · rw [if_neg hp]
      rw [List.filter_cons_of_neg (by simpa using hp)]

/-- A successful scan yields either the initial candidate or one of the
scanned anchors. -/
theorem scanAnchors_some_mem {dom : String → Option Int} :
    ∀ {l : List String} {acc r : Option String},
      scanAnchors dom acc l = some r → r = acc ∨ ∃ a ∈ l, r = some a := by
  intro l
  induction l with
  | nil =>
    intro acc r h
    cases h
    exact Or.inl rfl
  | cons a rest ih =>
    intro acc r h
    unfold scanAnchors at h
    cases hd : dom (cleanAnchor a) with
    | none => rw [hd] at h; cases h
    | some top =>
      rw [hd] at h
      rcases ih h with hacc | ⟨b, hb, hrb⟩
      · by_cases hp : top - 26 < 0
        · rw [if_pos hp] at hacc
          exact Or.inr ⟨a, List.mem_cons_self a rest, hacc⟩
        · rw [if_neg hp] at hacc
          exact Or.inl hacc
      · exact Or.inr ⟨b, List.mem_cons_of_mem a hb, hrb⟩

/-- If any scanned anchor's element is missing, the scan throws. -/
theorem scanAnchors_none_of_missing {dom : String → Option Int} :
    ∀ {l : List String}, (∃ a ∈ l, dom (cleanAnchor a) = none) →
      ∀ acc, scanAnchors dom acc l = none := by
  intro l
  induction l with
  | nil => rintro ⟨a, ha, _⟩; cases ha
  | cons a rest ih =>
    rintro ⟨b, hb, hmiss⟩ acc
    unfold scanAnchors
    cases hd : dom (cleanAnchor a) with
    | none => rfl
    | some top =>
      rcases List.mem_cons.mp hb with hba | hbrest
      · subst hba; rw [hd] at hmiss; cases hmiss
      · exact ih ⟨b, hbrest, hmiss⟩ _

/-! ## Claim theorems -/

/-- C9: the anchor identifier transform `cleanAnchor` is a pure, total,
deterministic function on strings (it is a Lean function) and idempotent:
`cleanAnchor (cleanAnchor s) = cleanAnchor s` for every string; an
already-lowercase hyphenated string passes through unchanged, and
`cleanAnchor "Composing Styles" = "composing-styles"`,
`cleanAnchor "$as prop" = "as-prop"`. -/
theorem c9_cleanAnchor_idempotent :
    (∀ s : String, cleanAnchor (cleanAnchor s) = cleanAnchor s) ∧
    cleanAnchor "Composing Styles" = "composing-styles" ∧
    cleanAnchor "$as prop" = "as-prop" ∧
    cleanAnchor "composing-styles" = "composing-styles" := by
  refine ⟨?_, by decide, by decide, by decide⟩
  intro s
  show String.mk _ = String.mk _
  congr 1
  show ((String.mk ((s.toList.map Char.toLower).filterMap keepChar)).toList.map
      Char.toLower).filterMap keepChar = _
  have htl : (String.mk ((s.toList.map Char.toLower).filterMap keepChar)).toList
      = (s.toList.map Char.toLower).filterMap keepChar := rfl
  rw [htl, map_toLower_filterMap_keepChar, filterMap_keepChar_idem]

/-- C5: a route matches the current path exactly when the two path strings
are equal after removing every separator character; the route found by
`getPathIndex` always satisfies this equality, and in particular the path
"/react/" matches the route path "/react", which is picked as active
(index 0). -/
theorem c5_path_matching_strips_separators :
    (∀ (r : Route) (path : String),
      routeMatches r path = true ↔ stripSlashes r.path = stripSlashes path) ∧
    (∀ (routes : List Route) (path : String) (r : Route),
      routeAt routes (getPathIndex routes path) = some r →
      stripSlashes r.path = stripSlashes path) ∧
    stripSlashes "/react/" = stripSlashes "/react" ∧
    getPathIndex [⟨"/react", "React", none⟩] "/react/" = 0 := by
  refine ⟨?_, ?_, by decide, by decide⟩
  · intro r path
    unfold routeMatches
    exact beq_iff_eq
  · intro routes path r h
    exact routeAt_getPathIndex_matches h

/-- C5 witness: the second conjunct of the theorem applied at a concrete
route table and path. -/
theorem c5_path_matching_strips_separators_witness :
    routeAt [(⟨"/react", "React", none⟩ : Route)]
        (getPathIndex [⟨"/react", "React", none⟩] "/react/") =
      some ⟨"/react", "React", none⟩ ∧
    stripSlashes "/react" = stripSlashes "/react/" :=
  ⟨by decide,
    c5_path_matching_strips_separators.2.1 [⟨"/react", "React", none⟩] "/react/"
      ⟨"/react", "React", none⟩ (by decide)⟩

/-- C6: before any scroll recomputation, the active-anchor state is the
first anchor of the matched route's anchor list when the current path
matches a route carrying an anchor list, and "no anchor" when the path
matches no route or the matched route has no anchor list. -/
theorem c6_initial_active_anchor (routes : List Route) (path : String) :
    (∀ r a rest, routeAt routes (getPathIndex routes path) = some r →
      r.anchors = some (a :: rest) →
      (initState routes path).activeAnchor = some a) ∧
    (routeAt routes (getPathIndex routes path) = none →
      (initState routes path).activeAnchor = none) ∧
    (∀ r, routeAt routes (getPathIndex routes path) = some r →
      r.anchors = none →
      (initState routes path).activeAnchor = none) := by
  refine ⟨?_, ?_, ?_⟩
  · intro r a rest hr ha
    simp [initState, hr, ha]
  · intro hr
    simp [initState, hr]
  · intro r hr ha
    simp [initState, hr, ha]

/-- C6 witness: the first and third conjuncts applied at concrete route
tables. -/
theorem c6_initial_active_anchor_witness :
    (initState [(⟨"/react", "React", some ["Alpha B", "Beta C"]⟩ : Route)]
        "/react").activeAnchor = some "Alpha B" ∧
    (initState [(⟨"/about", "About", none⟩ : Route)] "/about").activeAnchor
      = none :=
  ⟨(c6_initial_active_anchor [⟨"/react", "React", some ["Alpha B", "Beta C"]⟩]
      "/react").1 ⟨"/react", "React", some ["Alpha B", "Beta C"]⟩ "Alpha B"
      ["Beta C"] (by decide) rfl,
    (c6_initial_active_anchor [⟨"/about", "About", none⟩] "/about").2.2
      ⟨"/about", "About", none⟩ (by decide) rfl⟩

/-- C1: for a route with a non-empty anchor list, one run of `onScroll`
with every anchor's element present sets the active anchor to the last
anchor in list order whose element top offset minus the 26px threshold is
negative, and to the first anchor of the list (`l.head?`) when no anchor
satisfies the condition. -/
theorem c1_onScroll_last_passed {routes : List Route} {path : String}
    {dom : String → Option Int} {top : String → Int} {r : Route}
    {l : List String}
    (hr : routeAt routes (getPathIndex routes path) = some r)
    (ha : r.anchors = some l) (hne : l ≠ [])
    (hdom : ∀ a ∈ l, dom (cleanAnchor a) = some (top a)) :
    onScroll routes path dom =
      some (match (l.filter (fun a => decide (top a - 26 < 0))).getLast? with
            | some a => some a
            | none => l.head?) ∧
    (l.filter (fun a => decide (top a - 26 < 0)) = [] →
      ∃ first rest, l = first :: rest ∧
        onScroll routes path dom = some (some first)) := by
  have hmain : onScroll routes path dom =
      some (match (l.filter (fun a => decide (top a - 26 < 0))).getLast? with
            | some a => some a
            | none => l.head?) := by
    unfold onScroll
    rw [hr]
    show (match r.anchors with
      | none => none
      | some anchors => scanAnchors dom anchors.head? anchors) = _
    rw [ha]
    show scanAnchors dom l.head? l = _
    exact scanAnchors_eq_of_total hdom l.head?
  refine ⟨hmain, ?_⟩
  intro hfilter
  cases l with
  | nil => exact absurd rfl hne
  | cons first rest =>
    refine ⟨first, rest, rfl, ?_⟩
    rw [hmain, hfilter]
    rfl

/-- C1 witness: three anchors whose first two elements have passed the
threshold and whose third has not; the active anchor resolves to the
second ("last one passed"). -/
theorem c1_onScroll_last_passed_witness :
    (∀ a ∈ ["Alpha B", "Beta C", "Gamma D"],
      (fun s => if s = "alpha-b" then some (-100 : Int)
        else if s = "beta-c" then some (-50)
        else if s = "gamma-d" then some 500 else none) (cleanAnchor a) =
      some ((fun s => if s = "Alpha B" then (-100 : Int)
        else if s = "Beta C" then (-50) else 500) a)) ∧
    onScroll [⟨"/react", "React", some ["Alpha B", "Beta C", "Gamma D"]⟩]
        "/react"
        (fun s => if s = "alpha-b" then some (-100 : Int)
          else if s = "beta-c" then some (-50)
          else if s = "gamma-d" then some 500 else none) =
      some (some "Beta C") := by
  refine ⟨by decide, ?_⟩
  have h := @c1_onScroll_last_passed
    [⟨"/react", "React", some ["Alpha B", "Beta C", "Gamma D"]⟩]
    "/react"
    (fun s => if s = "alpha-b" then some (-100 : Int)
      else if s = "beta-c" then some (-50)
      else if s = "gamma-d" then some 500 else none)
    (fun s => if s = "Alpha B" then (-100 : Int)
      else if s = "Beta C" then (-50) else 500)
    ⟨"/react", "React", some ["Alpha B", "Beta C", "Gamma D"]⟩
    ["Alpha B", "Beta C", "Gamma D"]
    (by decide) rfl (by decide) (by decide)
  rw [h.1]
  decide

/-- C2 counterexample: with the element for "Alpha B" absent and the one
for "Beta C" present (and past the threshold), `onScroll` does not skip
the missing anchor and complete with an anchor from the remaining ones: it
throws (`none`), producing no active anchor at all. -/
theorem c2_skip_missing_counterexample :
    (fun s => if s = "beta-c" then some (-50 : Int) else none)
      (cleanAnchor "Alpha B") = none ∧
    (fun s => if s = "beta-c" then some (-50 : Int) else none)
      (cleanAnchor "Beta C") = some (-50) ∧
    onScroll [⟨"/x", "X", some ["Alpha B", "Beta C"]⟩] "/x"
      (fun s => if s = "beta-c" then some (-50 : Int) else none) = none := by
  refine ⟨by decide, by decide, by decide⟩

/-- C2 amended: when some anchor's element is absent, the scroll
recomputation aborts at the first missing element instead of skipping it:
the whole scan throws and no active anchor is produced. -/
theorem c2_missing_element_aborts {routes : List Route} {path : String}
    {dom : String → Option Int} {r : Route} {l : List String}
    (hr : routeAt routes (getPathIndex routes path) = some r)
    (ha : r.anchors = some l)
    (hmiss : ∃ a ∈ l, dom (cleanAnchor a) = none) :
    onScroll routes path dom = none := by
  unfold onScroll
  rw [hr]
  show (match r.anchors with
    | none => none
    | some anchors => scanAnchors dom anchors.head? anchors) = _
  rw [ha]
  show scanAnchors dom l.head? l = _
  exact scanAnchors_none_of_missing hmiss _

/-- C2 amended witness: the amended theorem applied at the concrete input
of the counterexample. -/
theorem c2_missing_element_aborts_witness :
    (∃ a ∈ ["Alpha B", "Beta C"],
      (fun s => if s = "beta-c" then some (-50 : Int) else none)
        (cleanAnchor a) = none) ∧
    onScroll [⟨"/x", "X", some ["Alpha B", "Beta C"]⟩] "/x"
      (fun s => if s = "beta-c" then some (-50 : Int) else none) = none :=
  ⟨⟨"Alpha B", by decide, by decide⟩,
    @c2_missing_element_aborts
      [⟨"/x", "X", some ["Alpha B", "Beta C"]⟩] "/x"
      (fun s => if s = "beta-c" then some (-50 : Int) else none)
      ⟨"/x", "X", some ["Alpha B", "Beta C"]⟩
      ["Alpha B", "Beta C"] (by decide) rfl
      ⟨"Alpha B", by decide, by decide⟩⟩

/-- C3 counterexample: a route whose anchors field is a present but empty
array is not inert: `componentDidMount` does register a scroll listener
(the first component, the number of `addEventListener` calls, is 1 and
not 0). -/
theorem c3_empty_anchors_counterexample :
    ¬ (∀ (routes : List Route) (path : String) (dom : String → Option Int)
        (s : LayoutState) (r : Route),
        routeAt routes (getPathIndex routes path) = some r →
        r.anchors = some [] →
        (componentDidMount routes path dom s).map (fun t => t.1) = some 0) := by
  intro h
  have hc := h [⟨"/x", "X", some []⟩] "/x" (fun _ => none)
    ⟨false, none⟩ ⟨"/x", "X", some []⟩ (by decide) rfl
  exact absurd hc (by decide)

/-- C3 amended: a route with an absent anchors field is fully inert (no
listener registration, no `onScroll` run, state untouched, initial active
anchor "no anchor"); a route with a present but empty anchors array does
register a scroll listener and run a recomputation, but that recomputation
never measures the DOM (its result is the same for every DOM) and the
active anchor is "no anchor" and stays so for the page's lifetime. -/
theorem c3_empty_anchors_amended {routes : List Route} {path : String}
    {r : Route} (hr : routeAt routes (getPathIndex routes path) = some r) :
    (r.anchors = none →
      (∀ (dom : String → Option Int) (s : LayoutState), componentDidMount routes path dom s = some (0, 0, s)) ∧
      (initState routes path).activeAnchor = none) ∧
    (r.anchors = some [] →
      (∀ (dom : String → Option Int) (s : LayoutState), componentDidMount routes path dom s =
        some (1, 1, { s with activeAnchor := none })) ∧
      (initState routes path).activeAnchor = none ∧
      (∀ dom, onScroll routes path dom = some none) ∧
      (∀ (doms : List (String → Option Int)) (s : LayoutState), runScrolls routes path doms { s with activeAnchor := none } =
        { s with activeAnchor := (none : Option String) })) := by
  constructor
  · intro ha
    constructor
    · intro dom s
      simp [componentDidMount, hr, ha]
    · simp [initState, hr, ha]
  · intro ha
    have hscroll : ∀ dom, onScroll routes path dom = some none := by
      intro dom
      unfold onScroll
      rw [hr]
      show (match r.anchors with
        | none => none
        | some anchors => scanAnchors dom anchors.head? anchors) = _
      rw [ha]
      rfl
    refine ⟨?_, ?_, hscroll, ?_⟩
    · intro dom s
      simp [componentDidMount, hr, ha, scrollStep, hscroll dom]
    · simp [initState, hr, ha]
    · intro doms s
      induction doms with
      | nil => rfl
      | cons d rest ih =>
        show runScrolls routes path rest
          (scrollStep routes path d { s with activeAnchor := none }) = _
        rw [show scrollStep routes path d { s with activeAnchor := none }
            = { s with activeAnchor := (none : Option String) } by
          simp [scrollStep, hscroll d]]
        exact ih

/-- C3 amended witness: the amended theorem applied to one route with an
absent anchors field and one with an empty anchors array. -/
theorem c3_empty_anchors_amended_witness :
    componentDidMount [(⟨"/about", "About", none⟩ : Route)] "/about"
      (fun _ => none) ⟨false, none⟩ = some (0, 0, ⟨false, none⟩) ∧
    componentDidMount [(⟨"/x", "X", some []⟩ : Route)] "/x"
      (fun _ => none) ⟨false, some "stale"⟩ = some (1, 1, ⟨false, none⟩) :=
  ⟨((@c3_empty_anchors_amended
      [⟨"/about", "About", none⟩] "/about"
      ⟨"/about", "About", none⟩ (by decide)).1 rfl).1
      (fun _ => none) ⟨false, none⟩,
    ((@c3_empty_anchors_amended
      [⟨"/x", "X", some []⟩] "/x"
      ⟨"/x", "X", some []⟩ (by decide)).2 rfl).1
      (fun _ => none) ⟨false, some "stale"⟩⟩

/-- C8: on mount of a page whose route carries an anchor list (and whose
initial recomputation succeeds), exactly one scroll listener is registered
and exactly one recomputation runs, setting the initial active anchor; on
unmount the listener is removed unconditionally, leaving none registered. -/
theorem c8_mount_registers_unmount_removes {routes : List Route}
    {path : String} {dom : String → Option Int} {r : Route} {l : List String}
    {a : Option String}
    (hr : routeAt routes (getPathIndex routes path) = some r)
    (ha : r.anchors = some l)
    (hscroll : onScroll routes path dom = some a) :
    (∀ s : LayoutState, componentDidMount routes path dom s =
      some (1, 1, { s with activeAnchor := a })) ∧
    (∀ registered, componentWillUnmount registered = false) := by
  constructor
  · intro s
    simp [componentDidMount, hr, ha, scrollStep, hscroll]
  · intro registered
    rfl

/-- C8 witness: the theorem applied at a concrete mounted page. -/
theorem c8_mount_registers_unmount_removes_witness :
    onScroll [⟨"/react", "React", some ["Alpha B"]⟩] "/react"
      (fun s => if s = "alpha-b" then some (-100 : Int) else none) =
      some (some "Alpha B") ∧
    componentDidMount [⟨"/react", "React", some ["Alpha B"]⟩] "/react"
      (fun s => if s = "alpha-b" then some (-100 : Int) else none)
      ⟨false, none⟩ = some (1, 1, ⟨false, some "Alpha B"⟩) ∧
    componentWillUnmount true = false :=
  ⟨by decide,
    (@c8_mount_registers_unmount_removes
      [⟨"/react", "React", some ["Alpha B"]⟩] "/react"
      (fun s => if s = "alpha-b" then some (-100 : Int) else none)
      ⟨"/react", "React", some ["Alpha B"]⟩ ["Alpha B"]
      (some "Alpha B") (by decide) rfl (by decide)).1 ⟨false, none⟩,
    (@c8_mount_registers_unmount_removes
      [⟨"/react", "React", some ["Alpha B"]⟩] "/react"
      (fun s => if s = "alpha-b" then some (-100 : Int) else none)
      ⟨"/react", "React", some ["Alpha B"]⟩ ["Alpha B"]
      (some "Alpha B") (by decide) rfl (by decide)).2 true⟩

/-- C10: the scroll recomputation is memoryless: whenever `onScroll`
completes, the active anchor it stores is a function of the route table,
path and DOM snapshot alone; two runs from arbitrary prior states agree,
so the previously stored anchor is never read. -/
theorem c10_onScroll_memoryless {routes : List Route} {path : String}
    {dom : String → Option Int} {a : Option String}
    (h : onScroll routes path dom = some a) :
    ∀ s₁ s₂ : LayoutState,
      (scrollStep routes path dom s₁).activeAnchor = a ∧
      (scrollStep routes path dom s₂).activeAnchor = a := by
  intro s₁ s₂
  constructor <;> simp [scrollStep, h]

/-- C10 witness: two runs from states with different previously stored
anchors both produce the same recomputed anchor. -/
theorem c10_onScroll_memoryless_witness :
    onScroll [⟨"/react", "React", some ["Alpha B"]⟩] "/react"
      (fun s => if s = "alpha-b" then some (-100 : Int) else none) =
      some (some "Alpha B") ∧
    (scrollStep [⟨"/react", "React", some ["Alpha B"]⟩] "/react"
      (fun s => if s = "alpha-b" then some (-100 : Int) else none)
      ⟨false, some "stale"⟩).activeAnchor = some "Alpha B" ∧
    (scrollStep [⟨"/react", "React", some ["Alpha B"]⟩] "/react"
      (fun s => if s = "alpha-b" then some (-100 : Int) else none)
      ⟨true, none⟩).activeAnchor = some "Alpha B" :=
  ⟨by decide,
    (@c10_onScroll_memoryless
      [⟨"/react", "React", some ["Alpha B"]⟩] "/react"
      (fun s => if s = "alpha-b" then some (-100 : Int) else none)
      (some "Alpha B") (by decide) ⟨false, some "stale"⟩ ⟨true, none⟩).1,
    (@c10_onScroll_memoryless
      [⟨"/react", "React", some ["Alpha B"]⟩] "/react"
      (fun s => if s = "alpha-b" then some (-100 : Int) else none)
      (some "Alpha B") (by decide) ⟨false, some "stale"⟩ ⟨true, none⟩).2⟩

/-- The active-anchor invariant of the data model: the state is "no
anchor" or one of the current route's anchors. -/
def validAnchor (routes : List Route) (path : String)
    (x : Option String) : Prop :=
  x = none ∨ ∃ a, x = some a ∧ a ∈ currentAnchors routes path

/-- The initial active anchor satisfies the invariant. -/
theorem initState_validAnchor (routes : List Route) (path : String) :
    validAnchor routes path (initState routes path).activeAnchor := by
  unfold validAnchor
  cases hr : routeAt routes (getPathIndex routes path) with
  | none => exact Or.inl (by simp [initState, hr])
  | some r =>
    cases ha : r.anchors with
    | none => exact Or.inl (by simp [initState, hr, ha])
    | some l =>
      cases l with
      | nil => exact Or.inl (by simp [initState, hr, ha])
      | cons a rest =>
        exact Or.inr ⟨a, by simp [initState, hr, ha],
          by simp [currentAnchors, hr, ha]⟩

/-- One scroll event preserves the invariant. -/
theorem scrollStep_validAnchor {routes : List Route} {path : String}
    (dom : String → Option Int) {s : LayoutState}
    (hs : validAnchor routes path s.activeAnchor) :
    validAnchor routes path (scrollStep routes path dom s).activeAnchor := by
  unfold scrollStep
  cases ho : onScroll routes path dom with
  | none => exact hs
  | some a =>
    show validAnchor routes path a
    cases hr : routeAt routes (getPathIndex routes path) with
    | none =>
      have hnone : onScroll routes path dom = none := by
        unfold onScroll; rw [hr]
      rw [hnone] at ho
      cases ho
    | some r =>
      cases ha : r.anchors with
      | none =>
        have hnone : onScroll routes path dom = none := by
          unfold onScroll
          rw [hr]
          show (match r.anchors with
            | none => none
            | some anchors => scanAnchors dom anchors.head? anchors) = none
          rw [ha]
        rw [hnone] at ho
        cases ho
      | some l =>
        have hred : onScroll routes path dom = scanAnchors dom l.head? l := by
          unfold onScroll
          rw [hr]
          show (match r.anchors with
            | none => none
            | some anchors => scanAnchors dom anchors.head? anchors) = _
          rw [ha]
        rw [hred] at ho
        have hmem : a = l.head? ∨ ∃ b ∈ l, a = some b := scanAnchors_some_mem ho
        have hcur : currentAnchors routes path = l := by
          simp [currentAnchors, hr, ha]
        rcases hmem with hd | ⟨b, hb, hab⟩
        · cases l with
          | nil => exact Or.inl hd
          | cons x rest =>
            exact Or.inr ⟨x, hd, by rw [hcur]; exact List.mem_cons_self x rest⟩
        · exact Or.inr ⟨b, hab, by rw [hcur]; exact hb⟩

/-- C7: after initialization and any sequence of scroll recomputations,
the active-anchor state is exactly "no anchor" or a member of the current
route's anchor list; it is never an anchor outside that list. -/
theorem c7_active_anchor_invariant (routes : List Route) (path : String)
    (doms : List (String → Option Int)) :
    validAnchor routes path
      (runScrolls routes path doms (initState routes path)).activeAnchor := by
  have hstep : ∀ (doms : List (String → Option Int)) (s : LayoutState),
      validAnchor routes path s.activeAnchor →
      validAnchor routes path
        (runScrolls routes path doms s).activeAnchor := by
    intro doms
    induction doms with
    | nil => intro s hs; exact hs
    | cons d rest ih =>
      intro s hs
      exact ih _ (scrollStep_validAnchor d hs)
  exact hstep doms _ (initState_validAnchor routes path)

/-! ## Navigation renderer lemmas -/

theorem routeAt_some {routes : List Route} {i : Int} {r : Route}
    (h : routeAt routes i = some r) :
    0 ≤ i ∧ routes[i.toNat]? = some r := by
  unfold routeAt at h
  by_cases h0 : 0 ≤ i
  · rw [if_pos h0] at h
    exact ⟨h0, h⟩
  · rw [if_neg h0] at h
    cases h

/-- A block of route items all rendered inactive contributes nothing to
any of the three observations. -/
theorem inactive_block_facts (rts : List Route) :
    ((rts.map (fun rt => NavItem.routeItem rt.text false)).filter
      isActiveRoute = []) ∧
    ((rts.map (fun rt => NavItem.routeItem rt.text false)).filterMap
      anchorName = []) ∧
    ((rts.map (fun rt => NavItem.routeItem rt.text false)).filter
      isActiveAnchorItem = []) := by
  induction rts with
  | nil => exact ⟨rfl, rfl, rfl⟩
  | cons rt rest ih =>
    refine ⟨?_, ?_, ?_⟩ <;>
      simp [List.filter_cons, List.filterMap_cons, isActiveRoute,
        isActiveAnchorItem, anchorName, ih.1, ih.2.1, ih.2.2]

/-- Anchor sub-items are never route items. -/
theorem anchorItems_filter_isActiveRoute (l : List String)
    (b : String → Bool) :
    ((l.map (fun a => NavItem.anchorItem a (b a))).filter
      isActiveRoute) = [] := by
  induction l with
  | nil => rfl
  | cons a rest ih => simp [List.filter_cons, isActiveRoute, ih]

/-- The anchors carried by a block of anchor sub-items are exactly the
anchor list it was rendered from. -/
theorem anchorItems_filterMap_anchorName (l : List String)
    (b : String → Bool) :
    ((l.map (fun a => NavItem.anchorItem a (b a))).filterMap
      anchorName) = l := by
  induction l with
  | nil => rfl
  | cons a rest ih => simp [List.filterMap_cons, anchorName, ih]

theorem anchorItems_filter_active_nil {x : String} {l : List String}
    (hx : x ∉ l) :
    ((l.map (fun a => NavItem.anchorItem a (decide (x = a)))).filter
        isActiveAnchorItem) = [] := by
  induction l with
  | nil => rfl
  | cons a rest ih =>
    have hxa : x ≠ a := fun h => hx (h ▸ List.mem_cons_self a rest)
    have hrest : x ∉ rest := fun h => hx (List.mem_cons_of_mem a h)
    simp [List.filter_cons, isActiveAnchorItem, hxa, ih hrest]

/-- In a block of anchor sub-items rendered from a duplicate-free list
containing the tracked anchor, exactly that one item is marked active. -/
theorem anchorItems_filter_active_unique {x : String} {l : List String}
    (hnd : l.Nodup) (hx : x ∈ l) :
    ((l.map (fun a => NavItem.anchorItem a (decide (x = a)))).filter
        isActiveAnchorItem) = [NavItem.anchorItem x true] := by
  induction l with
  | nil => cases hx
  | cons a rest ih =>
    rcases List.mem_cons.mp hx with hxa | hxrest
    · subst hxa
      have hnotin : x ∉ rest := (List.nodup_cons.mp hnd).1
      simp [List.filter_cons, isActiveAnchorItem,
        anchorItems_filter_active_nil hnotin]
    · have hxa : x ≠ a := by
        intro h
        exact (List.nodup_cons.mp hnd).1 (h ▸ hxrest)
      simp [List.filter_cons, isActiveAnchorItem, hxa,
        ih (List.nodup_cons.mp hnd).2 hxrest]

/-- The walk renders every route item inactive on a run of indices that
misses `pathIndex`. -/
theorem renderNavAux_no_hit {routes : List Route} {pi : Int}
    {x : Option String} :
    ∀ (rest : List Route) (i : Nat),
      (∀ j, j < rest.length → pi ≠ ((i + j : Nat) : Int)) →
      renderNavAux routes pi x i rest =
        some (rest.map (fun rt => NavItem.routeItem rt.text false)) := by
  intro rest
  induction rest with
  | nil => intro i _; rfl
  | cons rt rest' ih =>
    intro i hmiss
    have h0 : pi ≠ (i : Int) := by
      have := hmiss 0 (by simp)
      simpa using this
    have hrest : ∀ j, j < rest'.length → pi ≠ (((i + 1) + j : Nat) : Int) := by
      intro j hj
      have := hmiss (j + 1) (by simpa using Nat.succ_lt_succ hj)
      convert this using 2
      omega
    unfold renderNavAux
    rw [if_neg h0]
    rw [ih (i + 1) hrest]
    simp [h0]

/-- The walk over a suffix of the table containing the matching index
renders exactly one active route item (the matching route's), exactly the
matching route's anchors as sub-items, and exactly one active anchor
sub-item (the tracked anchor's). -/
theorem renderNavAux_hit {routes : List Route} {pi : Int} {x : String}
    {r : Route} {l : List String}
    (hroute : routeAt routes pi = some r) (ha : r.anchors = some l)
    (hnd : l.Nodup) (hx : x ∈ l) :
    ∀ (rest : List Route) (i : Nat), routes.drop i = rest →
      (i : Int) ≤ pi → pi < (i : Int) + rest.length →
      ∃ items, renderNavAux routes pi (some x) i rest = some items ∧
        items.filter isActiveRoute = [NavItem.routeItem r.text true] ∧
        items.filterMap anchorName = l ∧
        items.filter isActiveAnchorItem = [NavItem.anchorItem x true] := by
  intro rest
  induction rest with
  | nil =>
    intro i _ hle hlt
    simp at hlt
    omega
  | cons rt rest' ih =>
    intro i hdrop hle hlt
    by_cases hpi : pi = (i : Int)
    · -- the matching index: the active route and its anchor block render here
      have hrt : rt = r := by
        have h1 : routes[i]? = some rt := by
          rw [← List.head?_drop, hdrop]
          rfl
        have h2 := (routeAt_some hroute).2
        rw [hpi] at h2
        simp only [Int.toNat_natCast] at h2
        rw [h1] at h2
        exact (Option.some.injEq _ _).mp h2
      have htail : renderNavAux routes pi (some x) (i + 1) rest' =
          some (rest'.map (fun rt => NavItem.routeItem rt.text false)) := by
        apply renderNavAux_no_hit
        intro j _
        rw [hpi]
        intro hcontra
        have := Int.ofNat.inj hcontra
        omega
      refine ⟨NavItem.routeItem rt.text true ::
        (l.map (fun a =>
          NavItem.anchorItem a (decide ((some x : Option String) = some a))) ++
          rest'.map (fun rt => NavItem.routeItem rt.text false)), ?_, ?_, ?_, ?_⟩
      · unfold renderNavAux
        rw [if_pos hpi, hroute]
        show (match r.anchors with
          | none => none
          | some l => (renderNavAux routes pi (some x) (i + 1) rest').map
              (fun t => NavItem.routeItem rt.text (decide (pi = (i : Int))) ::
                l.map (fun a =>
                  NavItem.anchorItem a (decide ((some x : Option String) = some a)))
                  ++ t)) = _
        rw [ha, htail]
        simp [hpi]
      · rw [hrt]
        simp [List.filter_cons, List.filter_append, isActiveRoute,
          anchorItems_filter_isActiveRoute, (inactive_block_facts rest').1]
      · simp [List.filterMap_cons, List.filterMap_append, anchorName,
          Function.comp_def, List.filterMap_some,
          (inactive_block_facts rest').2.1]
      · simp [List.filter_cons, List.filter_append, isActiveAnchorItem,
          anchorItems_filter_active_unique hnd hx,
          (inactive_block_facts rest').2.2]
    · -- not yet the matching index: an inactive route item, then recurse
      have hdrop' : routes.drop (i + 1) = rest' := by
        rw [← List.tail_drop, hdrop]
        rfl
      have hle' : ((i + 1 : Nat) : Int) ≤ pi := by
        push_cast
        omega
      have hlt' : pi < ((i + 1 : Nat) : Int) + rest'.length := by
        push_cast
        simp at hlt
        omega
      obtain ⟨t, ht, hf1, hf2, hf3⟩ := ih (i + 1) hdrop' hle' hlt'
      refine ⟨NavItem.routeItem rt.text false :: t, ?_, ?_, ?_, ?_⟩
      · unfold renderNavAux
        rw [if_neg hpi, ht]
        simp [hpi]
      · simp [List.filter_cons, isActiveRoute, hf1]
      · simp [List.filterMap_cons, anchorName, hf2]
      · simp [List.filter_cons, isActiveAnchorItem, hf3]

/-- C4 counterexample: the navigation renderer does not mark exactly one
route active for every route table, current path and tracked anchor: with
the table `[/react]` and current path "/other" no route matches
(`pathIndex = -1`) and zero route items are marked active. -/
theorem c4_unique_active_counterexample :
    ¬ (∀ (routes : List Route) (path : String) (x : Option String),
        ∃ items, renderNav routes (getPathIndex routes path) x = some items ∧
          items.countP isActiveRoute = 1) := by
  intro h
  obtain ⟨items, h1, h2⟩ := h [⟨"/react", "React", some []⟩] "/other" none
  have hval : renderNav [(⟨"/react", "React", some []⟩ : Route)]
      (getPathIndex [⟨"/react", "React", some []⟩] "/other") none =
      some [NavItem.routeItem "React" false] := by decide
  rw [hval] at h1
  injection h1 with h1
  subst h1
  exact absurd h2 (by decide)

/-- C4 amended: when the current path does match some route (after
stripping separators), that route carries an anchor list, the list is
duplicate-free and the tracked active anchor is one of its members, the
navigation renderer renders successfully, marks exactly one route item
active (the matched route's, whose path equals the current path with
separators stripped), renders exactly the matched route's anchors as
sub-items, and marks exactly one of them active, namely the tracked
anchor. -/
theorem c4_nav_unique_active {routes : List Route} {path : String}
    {r : Route} {l : List String} {x : String}
    (hr : routeAt routes (getPathIndex routes path) = some r)
    (ha : r.anchors = some l) (hnd : l.Nodup) (hx : x ∈ l) :
    ∃ items,
      renderNav routes (getPathIndex routes path) (some x) = some items ∧
      items.filter isActiveRoute = [NavItem.routeItem r.text true] ∧
      items.filterMap anchorName = l ∧
      items.filter isActiveAnchorItem = [NavItem.anchorItem x true] ∧
      stripSlashes r.path = stripSlashes path := by
  obtain ⟨h0, hget⟩ := routeAt_some hr
  have hlen : (getPathIndex routes path).toNat < routes.length := by
    obtain ⟨hlt, _⟩ := List.getElem?_eq_some.mp hget
    exact hlt
  obtain ⟨items, hrender, hf1, hf2, hf3⟩ :=
    renderNavAux_hit hr ha hnd hx routes 0 (List.drop_zero routes) (by omega)
      (by push_cast; omega)
  exact ⟨items, hrender, hf1, hf2, hf3, routeAt_getPathIndex_matches hr⟩

/-- C4 amended witness: a two-route table viewed at path "/react/" with
tracked anchor "Beta C": exactly one active route item and exactly one
active anchor sub-item are rendered. -/
theorem c4_nav_unique_active_witness :
    (routeAt [(⟨"/react", "React", some ["Alpha B", "Beta C"]⟩ : Route),
        ⟨"/about", "About", none⟩]
      (getPathIndex [⟨"/react", "React", some ["Alpha B", "Beta C"]⟩,
        ⟨"/about", "About", none⟩] "/react/") =
      some ⟨"/react", "React", some ["Alpha B", "Beta C"]⟩) ∧
    (["Alpha B", "Beta C"].Nodup ∧ "Beta C" ∈ ["Alpha B", "Beta C"]) ∧
    ((renderNav [⟨"/react", "React", some ["Alpha B", "Beta C"]⟩,
        ⟨"/about", "About", none⟩]
      (getPathIndex [⟨"/react", "React", some ["Alpha B", "Beta C"]⟩,
        ⟨"/about", "About", none⟩] "/react/") (some "Beta C")).map
        (List.filter isActiveRoute) = some [NavItem.routeItem "React" true]) ∧
    ((renderNav [⟨"/react", "React", some ["Alpha B", "Beta C"]⟩,
        ⟨"/about", "About", none⟩]
      (getPathIndex [⟨"/react", "React", some ["Alpha B", "Beta C"]⟩,
        ⟨"/about", "About", none⟩] "/react/") (some "Beta C")).map
        (List.filter isActiveAnchorItem) =
      some [NavItem.anchorItem "Beta C" true]) := by
  refine ⟨by decide, ⟨by decide, by decide⟩, ?_, ?_⟩
  all_goals
    obtain ⟨items, h1, h2, h3, h4, h5⟩ := @c4_nav_unique_active
      [⟨"/react", "React", some ["Alpha B", "Beta C"]⟩,
        ⟨"/about", "About", none⟩]
      "/react/"
      ⟨"/react", "React", some ["Alpha B", "Beta C"]⟩
      ["Alpha B", "Beta C"] "Beta C"
      (by decide) rfl (by decide) (by decide)
    rw [h1]
  · show some (items.filter isActiveRoute) = _
    rw [h2]
  · show some (items.filter isActiveAnchorItem) = _
    rw [h4]

end StyletronDocs
